import Mathlib

/-!
Verification of the signature placement and document-versioning engine of the
document signature server.  The definitions below are shallow embeddings of the
two controller implementations in the repository:

* namespace `TS` models `server/controllers/documentController.ts`
  (`applySignature`, `updateDocument`), the implementation with the full
  viewport-to-PDF coordinate mapping and file versioning;
* namespace `JS` models the legacy controller (src/unnamed/part_002:
  `applySignatures`, `shareDocument`), the implementation with share grants and
  the signer audit trail, which draws the signature at the page center and
  overwrites the current file in place.

Numbers are modelled with exact rationals, JavaScript async I/O with explicit
state passing over an association-list file store, and thrown errors with an
error sum type following the taxonomy of the specification.
-/

namespace DocSig

instance {ε α : Type} [DecidableEq ε] [DecidableEq α] : DecidableEq (Except ε α) :=
  fun x y =>
    match x, y with
    | .ok a, .ok b => decidable_of_iff (a = b) (by simp)
    | .error a, .error b => decidable_of_iff (a = b) (by simp)
    | .ok _, .error _ => isFalse (fun hc => by cases hc)
    | .error _, .ok _ => isFalse (fun hc => by cases hc)

/-- A rectangle in PDF point space: the x, y, width, height that are passed to
the pdf-lib page draw operation. -/
structure DrawnRect where
  x : ℚ
  y : ℚ
  width : ℚ
  height : ℚ
  deriving DecidableEq

/-- documentController.ts line 370: the fixed front-end display width (in
viewport units) assumed for image signatures. -/
def frontendDisplayWidth : ℚ := 150

/-- documentController.ts line 319: `scaleX = pdfPageOriginalWidth / pdfPageDimensions.width`. -/
def scaleX (pdfPageOriginalWidth viewportWidth : ℚ) : ℚ :=
  pdfPageOriginalWidth / viewportWidth

/-- documentController.ts line 320: `scaleY = pdfPageOriginalHeight / pdfPageDimensions.height`. -/
def scaleY (pdfPageOriginalHeight viewportHeight : ℚ) : ℚ :=
  pdfPageOriginalHeight / viewportHeight

/-- documentController.ts lines 327, 370-381: the placement rectangle passed to
`targetPage.drawImage` for an image signature.  `posX`, `posY` are the viewport
coordinates of the top-left corner of the draggable element, `viewW`, `viewH`
the rendered viewport page dimensions, and `imgW`, `imgH` the intrinsic pixel
dimensions of the embedded signature image. -/
def mapImagePlacement (pdfW pdfH viewW viewH posX posY imgW imgH : ℚ) : DrawnRect :=
  let sX := scaleX pdfW viewW
  let sY := scaleY pdfH viewH
  let frontendDisplayHeight := imgH * (frontendDisplayWidth / imgW)
  let finalSignatureWidth := frontendDisplayWidth * sX
  let finalSignatureHeight := frontendDisplayHeight * sY
  let finalX := posX * sX
  let finalY := pdfH - posY * sY - finalSignatureHeight
  { x := finalX, y := finalY, width := finalSignatureWidth, height := finalSignatureHeight }

/-- documentController.ts lines 393-394:
`finalX = Math.max(0, Math.min(finalX, pdfPageOriginalWidth - finalSignatureWidth))` and
the analogous clamp of `finalY`.  In the source these two statements execute
after the `drawImage`/`drawText` call. -/
def clampRect (pdfW pdfH : ℚ) (r : DrawnRect) : DrawnRect :=
  { x := max 0 (min r.x (pdfW - r.width)),
    y := max 0 (min r.y (pdfH - r.height)),
    width := r.width, height := r.height }

/-- The rectangle lies fully inside the page `[0, pdfW] x [0, pdfH]`. -/
def inPage (pdfW pdfH : ℚ) (r : DrawnRect) : Prop :=
  0 ≤ r.x ∧ r.x + r.width ≤ pdfW ∧ 0 ≤ r.y ∧ r.y + r.height ≤ pdfH

instance (pdfW pdfH : ℚ) (r : DrawnRect) : Decidable (inPage pdfW pdfH r) := by
  unfold inPage; infer_instance

/-- An in-memory PDF document: page count, native page dimensions in PDF
points, and the list of signature rectangles drawn onto it (most recent
first). -/
structure Pdf where
  pageCount : Nat
  width : ℚ
  height : ℚ
  marks : List DrawnRect
  deriving DecidableEq

/-- The on-disk blob store, modelled as an association list from path to file
content.  `lookupFile` models `fs.readFile` by path. -/
def lookupFile : List (String × Pdf) → String → Option Pdf
  | [], _ => none
  | (q, v) :: rest, p => if q = p then some v else lookupFile rest p

/-- `fs.writeFile` by path: replaces the content at an existing path, or adds a
new file when the path is fresh. -/
def storeWrite : List (String × Pdf) → String → Pdf → List (String × Pdf)
  | [], p, v => [(p, v)]
  | (q, w) :: rest, p, v =>
    if q = p then (p, v) :: rest else (q, w) :: storeWrite rest p v

/-- The error taxonomy of the specification; each constructor corresponds to a
`res.status(...); throw new Error(...)` site of the controllers. -/
inductive SignError where
  | notFound
  | forbidden
  | pageOutOfRange
  | persistenceFailure
  | unsupportedFormat
  | invalidPayload
  | corruptSource
  | selfShare
  deriving DecidableEq

/-- Models the data-URL encoding test `signature.startsWith(p)` as a character
list comparison (kernel-friendly rendition of String.startsWith). -/
def startsWithStr (s p : String) : Bool :=
  p.toList.isPrefixOf s.toList

def pngHeader : String := "data:image/png"
def jpegHeader : String := "data:image/jpeg"
def jpgHeader : String := "data:image/jpg"

/-- Models `path.basename(name, path.extname(name))` for a file name without
directory separators: drops the final dot-extension when there is one. -/
def dropExt (s : String) : String :=
  match (s.toList.reverse.dropWhile (fun c => ¬ c = '.')) with
  | [] => s
  | _ :: base => base.reverse.asString

/-- documentController.ts line 25: the signed-artifacts storage area, kept
separate from the uploads area. -/
def signedDocsDir : String := "signed_documents"

namespace TS

/-- server/models/Document.ts: allowed values of the `status` field. -/
inductive DocStatus where
  | pending
  | signed
  | archived
  | reviewed
  deriving DecidableEq

/-- The DocumentRecord of the TypeScript model (server/models/Document.ts),
restricted to the fields the sign pipeline reads or writes.  Users are
identified by a numeric id standing for the Mongo ObjectId. -/
structure Document where
  user : Nat
  fileName : String
  filePath : String
  originalName : String
  status : DocStatus
  lastSignedAt : Option Nat
  deriving DecidableEq

/-- A PlacementRequest for the TypeScript `applySignature` controller (image
branch): the acting user, the viewport placement and page dimensions, the
1-based target page, the intrinsic image dimensions, and the value of
`Date.now()` at the time of the request. -/
structure SignRequest where
  actor : Nat
  posX : ℚ
  posY : ℚ
  viewW : ℚ
  viewH : ℚ
  pageNumber : Nat
  imgW : ℚ
  imgH : ℚ
  now : Nat
  deriving DecidableEq

/-- The state a sign request acts on: the blob store and the document record. -/
structure State where
  files : List (String × Pdf)
  doc : Document
  deriving DecidableEq

/-- documentController.ts lines 400-402: the new version file name is derived
from the original file name (not the current `fileName`), a timestamp and a
fixed `.pdf` suffix. -/
def newFileNameFor (doc : Document) (now : Nat) : String :=
  dropExt doc.originalName ++ "_signed_" ++ toString now ++ ".pdf"

/-- documentController.ts `applySignature` (lines 210-433), image branch, as a
state transition.  Faithful to the source order: the request validation
rejects a page number below 1 (line 249), the owner check is line 297, the
current file is read from `doc.filePath` (line 303, read failure modelled as
`corruptSource`), the page bound check is line 307, the drawn rectangle is the
unclamped mapped placement (lines 315-388; lines 393-394 clamp the local
`finalX`/`finalY` afterwards but no later statement reads them), the modified
bytes are written to a fresh path in the signed-documents area (lines
397-405, `writeOk` tells whether the write succeeds), and only then is the
record metadata updated (lines 408-412). -/
def applySignature (st : State) (req : SignRequest) (writeOk : Bool) :
    State × Except SignError String :=
  if req.pageNumber < 1 then (st, .error .pageOutOfRange)
  else if st.doc.user ≠ req.actor then (st, .error .forbidden)
  else
    match lookupFile st.files st.doc.filePath with
    | none => (st, .error .corruptSource)
    | some pdf =>
      if pdf.pageCount < req.pageNumber then (st, .error .pageOutOfRange)
      else
        let rect := mapImagePlacement pdf.width pdf.height req.viewW req.viewH
          req.posX req.posY req.imgW req.imgH
        let pdf2 : Pdf := { pdf with marks := rect :: pdf.marks }
        let newFileName := newFileNameFor st.doc req.now
        let newFilePath := signedDocsDir ++ "/" ++ newFileName
        if writeOk then
          ({ files := storeWrite st.files newFilePath pdf2,
             doc := { st.doc with
                      filePath := newFilePath,
                      fileName := newFileName,
                      status := .signed,
                      lastSignedAt := some req.now } },
           .ok newFilePath)
        else (st, .error .persistenceFailure)

/-- documentController.ts `updateDocument` (lines 439-469):
`document.status = req.body.status || document.status` guarded only by the
owner check; `none` models a request body without a (truthy) status field. -/
def updateDocument (doc : Document) (actor : Nat) (newStatus : Option DocStatus) :
    Document × Except SignError Unit :=
  if doc.user ≠ actor then (doc, .error .forbidden)
  else ({ doc with status := newStatus.getD doc.status }, .ok ())

end TS

namespace JS

/-- part_002 / models/documentModel.js: share permission levels. -/
inductive Permission where
  | view
  | viewAndSign
  deriving DecidableEq

/-- One entry of the `sharedWith` array. -/
structure ShareEntry where
  user : Nat
  permission : Permission
  deriving DecidableEq

/-- One entry of the `signedBy` array: signer, timestamp, stored artifact. -/
structure SignedByEntry where
  user : Nat
  signedAt : Nat
  signatureImage : String
  deriving DecidableEq

/-- The DocumentRecord of the JavaScript model (models/documentModel.js);
`status` is a plain string there (no enum in the schema). -/
structure Document where
  owner : Nat
  originalName : String
  fileName : String
  filePath : String
  status : String
  sharedWith : List ShareEntry
  signedBy : List SignedByEntry
  deriving DecidableEq

/-- The state a request acts on: blob store plus document record. -/
structure State where
  files : List (String × Pdf)
  doc : Document
  deriving DecidableEq

/-- part_002 lines 276-279: `isOwner || hasSignPermission`, where
`hasSignPermission` is `sharedWith.some(s => s.user.equals(userId) &&
s.permission === 'view_and_sign')`. -/
def signAuthorized (doc : Document) (actor : Nat) : Prop :=
  doc.owner = actor ∨
    ∃ s ∈ doc.sharedWith, s.user = actor ∧ s.permission = Permission.viewAndSign

instance (doc : Document) (actor : Nat) : Decidable (signAuthorized doc actor) := by
  unfold signAuthorized; infer_instance

/-- part_002 lines 349-364: find the existing `signedBy` entry of this user and
update its timestamp and stored image in place, else push a new entry. -/
def upsertSignedBy : List SignedByEntry → Nat → Nat → String → List SignedByEntry
  | [], u, now, sig => [{ user := u, signedAt := now, signatureImage := sig }]
  | e :: rest, u, now, sig =>
    if e.user = u then { user := u, signedAt := now, signatureImage := sig } :: rest
    else e :: upsertSignedBy rest u now sig

/-- part_002 lines 313-321: the fixed 250x125 signature image rectangle drawn
at the center of the page. -/
def centerRect (pdf : Pdf) : DrawnRect :=
  { x := pdf.width / 2 - 250 / 2,
    y := pdf.height / 2 - 125 / 2,
    width := 250, height := 125 }

/-- part_002 `applySignatures` (lines 260-369) as a state transition.  Source
order: empty-payload check (line 263), owner-or-sign-grant check (lines
276-285), read of the current file (line 291, failure modelled as
`corruptSource`), data-URL format check (lines 298-305), draw of the centered
rectangle on the first page, write back to `document.filePath` itself -
overwriting the previous version (line 333, `writeOk` tells whether it
succeeds) - and only then the status update and the `signedBy` upsert (lines
346-366). -/
def applySignatures (st : State) (actor : Nat) (sig : String) (now : Nat)
    (writeOk : Bool) : State × Except SignError Unit :=
  if sig = "" then (st, .error .invalidPayload)
  else if ¬ signAuthorized st.doc actor then (st, .error .forbidden)
  else
    match lookupFile st.files st.doc.filePath with
    | none => (st, .error .corruptSource)
    | some pdf =>
      if ¬ (startsWithStr sig pngHeader ∨ startsWithStr sig jpegHeader ∨
            startsWithStr sig jpgHeader) then
        (st, .error .unsupportedFormat)
      else
        let pdf2 : Pdf := { pdf with marks := centerRect pdf :: pdf.marks }
        if writeOk then
          ({ files := storeWrite st.files st.doc.filePath pdf2,
             doc := { st.doc with
                      status := "signed",
                      signedBy := upsertSignedBy st.doc.signedBy actor now sig } },
           .ok ())
        else (st, .error .persistenceFailure)

/-- part_002 lines 228-253: if the grantee already has a grant, replace its
permission via `map`, else push a new grant. -/
def shareWith (l : List ShareEntry) (g : Nat) (p : Permission) : List ShareEntry :=
  if l.any (fun s => s.user == g) then
    l.map (fun s => if s.user == g then { user := g, permission := p } else s)
  else l ++ [{ user := g, permission := p }]

/-- part_002 `shareDocument` (lines 197-254) as a state transition: owner check
(line 208), grantee lookup by email (modelled as an already-resolved
`Option Nat`, line 214), self-share rejection (lines 222-225), then the
update-or-push of the grant. -/
def shareDocument (st : State) (actor : Nat) (target : Option Nat)
    (perm : Permission) : State × Except SignError Unit :=
  if st.doc.owner ≠ actor then (st, .error .forbidden)
  else
    match target with
    | none => (st, .error .notFound)
    | some g =>
      if g = actor then (st, .error .selfShare)
      else
        ({ st with doc := { st.doc with sharedWith := shareWith st.doc.sharedWith g perm } },
         .ok ())

/-- Number of share grants held by user `g`. -/
def countShare (l : List ShareEntry) (g : Nat) : Nat :=
  (l.filter (fun s => s.user == g)).length

/-- Number of signature entries keyed to user `u`. -/
def countFor (l : List SignedByEntry) (u : Nat) : Nat :=
  (l.filter (fun e => e.user == u)).length

end JS

-- Concrete example data used by the witnesses.

def exPdf : Pdf := { pageCount := 3, width := 612, height := 792, marks := [] }

def exPath : String := "uploads/contract-1.pdf"

def exSig : String := "data:image/png;base64,AAAA"

def exSig2 : String := "data:image/png;base64,BBBB"

def exJSDoc : JS.Document :=
  { owner := 7, originalName := "contract.pdf", fileName := "contract-1.pdf",
    filePath := exPath, status := "pending",
    sharedWith := [{ user := 8, permission := JS.Permission.viewAndSign }],
    signedBy := [] }

def exJSState : JS.State := { files := [(exPath, exPdf)], doc := exJSDoc }

def exTSDoc : TS.Document :=
  { user := 7, fileName := "contract-1.pdf", filePath := exPath,
    originalName := "contract.pdf", status := TS.DocStatus.pending,
    lastSignedAt := none }

def exTSState : TS.State := { files := [(exPath, exPdf)], doc := exTSDoc }

def exSignedTSDoc : TS.Document := { exTSDoc with status := TS.DocStatus.signed }

def exReq (page now : Nat) : TS.SignRequest :=
  { actor := 7, posX := 50, posY := 100, viewW := 300, viewH := 400,
    pageNumber := page, imgW := 300, imgH := 150, now := now }

/-!
Helper lemmas about the store, the clamp, and the upsert operations.
-/

theorem lookupFile_storeWrite_self (files : List (String × Pdf)) (p : String) (v : Pdf) :
    lookupFile (storeWrite files p v) p = some v := by
  induction files with
  | nil => simp [storeWrite, lookupFile]
  | cons hd tl ih =>
    obtain ⟨q, w⟩ := hd
    by_cases h : q = p
    · simp [storeWrite, lookupFile, h]
    · simp [storeWrite, lookupFile, h, ih]

theorem lookupFile_storeWrite_ne (files : List (String × Pdf)) (p r : String) (v : Pdf)
    (h : r ≠ p) : lookupFile (storeWrite files p v) r = lookupFile files r := by
  induction files with
  | nil => simp [storeWrite, lookupFile, Ne.symm h]
  | cons hd tl ih =>
    obtain ⟨q, w⟩ := hd
    by_cases hq : q = p
    · subst hq
      simp [storeWrite, lookupFile, Ne.symm h]
    · simp [storeWrite, lookupFile, hq, ih]

theorem clampRect_eq_of_inPage {pdfW pdfH : ℚ} {r : DrawnRect} (h : inPage pdfW pdfH r) :
    clampRect pdfW pdfH r = r := by
  obtain ⟨h1, h2, h3, h4⟩ := h
  have hx : min r.x (pdfW - r.width) = r.x := min_eq_left (by linarith)
  have hy : min r.y (pdfH - r.height) = r.y := min_eq_left (by linarith)
  simp [clampRect, hx, hy, max_eq_right h1, max_eq_right h3]

theorem countFor_upsert (l : List JS.SignedByEntry) (u now : Nat) (sig : String)
    (h : JS.countFor l u ≤ 1) :
    JS.countFor (JS.upsertSignedBy l u now sig) u = 1 := by
  induction l with
  | nil => simp [JS.upsertSignedBy, JS.countFor]
  | cons e rest ih =>
    by_cases he : e.user = u
    · simp [JS.countFor, List.filter_cons, he] at h
      simpa [JS.upsertSignedBy, he, JS.countFor, List.filter_cons] using h
    · have h' : JS.countFor rest u ≤ 1 := by
        simpa [JS.countFor, List.filter_cons, he] using h
      simp [JS.upsertSignedBy, he, JS.countFor, List.filter_cons] at ih ⊢
      exact ih h'

theorem find?_upsertSignedBy (l : List JS.SignedByEntry) (u now : Nat) (sig : String) :
    (JS.upsertSignedBy l u now sig).find? (fun e => e.user == u) =
      some { user := u, signedAt := now, signatureImage := sig } := by
  induction l with
  | nil => simp [JS.upsertSignedBy, List.find?]
  | cons e rest ih =>
    by_cases he : e.user = u
    · simp [JS.upsertSignedBy, he, List.find?]
    · simp [JS.upsertSignedBy, he, List.find?, ih]

theorem countShare_map_update (l : List JS.ShareEntry) (g : Nat) (p : JS.Permission) :
    JS.countShare
        (l.map (fun s => if s.user == g then { user := g, permission := p } else s)) g =
      JS.countShare l g := by
  induction l with
  | nil => simp [JS.countShare]
  | cons s rest ih =>
    by_cases hs : s.user = g
    · simp [JS.countShare, List.filter_cons, hs] at ih ⊢
      omega
    · simp [JS.countShare, List.filter_cons, hs] at ih ⊢
      exact ih

theorem countShare_shareWith (l : List JS.ShareEntry) (g : Nat) (p : JS.Permission)
    (h : JS.countShare l g ≤ 1) : JS.countShare (JS.shareWith l g p) g = 1 := by
  by_cases hany : l.any (fun s => s.user == g) = true
  · obtain ⟨s, hmem, hpred⟩ := List.any_eq_true.mp hany
    have hpos : 1 ≤ JS.countShare l g := by
      have hm : s ∈ l.filter (fun s => s.user == g) := List.mem_filter.mpr ⟨hmem, hpred⟩
      have := List.length_pos.mpr (List.ne_nil_of_mem hm)
      simpa [JS.countShare] using this
    rw [JS.shareWith, if_pos hany, countShare_map_update]
    omega
  · have hzero : l.filter (fun s => s.user == g) = [] := by
      refine List.filter_eq_nil_iff.mpr ?_
      intro s hs
      intro hp
      exact hany (List.any_eq_true.mpr ⟨s, hs, hp⟩)
    rw [JS.shareWith, if_neg hany]
    simp [JS.countShare, List.filter_append, hzero, List.filter_cons]

theorem find?_map_update (l : List JS.ShareEntry) (g : Nat) (p : JS.Permission)
    (h : l.any (fun s => s.user == g) = true) :
    (l.map (fun s => if s.user == g then { user := g, permission := p } else s)).find?
        (fun s => s.user == g) = some { user := g, permission := p } := by
  induction l with
  | nil => simp at h
  | cons s rest ih =>
    by_cases hs : s.user = g
    · rw [List.map_cons, List.find?_cons_of_pos _ (by simp [hs])]
      simp [hs]
    · have h' : rest.any (fun s => s.user == g) = true := by
        simpa [List.any_cons, hs] using h
      have hhead : (if s.user == g then ({ user := g, permission := p } : JS.ShareEntry)
          else s) = s := by simp [hs]
      rw [List.map_cons, hhead, List.find?_cons_of_neg _ (by simp [hs])]
      exact ih h'

theorem find?_append_absent (l : List JS.ShareEntry) (g : Nat) (p : JS.Permission)
    (h : ¬ l.any (fun s => s.user == g) = true) :
    (l ++ [({ user := g, permission := p } : JS.ShareEntry)]).find?
        (fun s => s.user == g) = some { user := g, permission := p } := by
  induction l with
  | nil => simp [List.find?]
  | cons s rest ih =>
    simp only [List.any_cons, Bool.or_eq_true, not_or] at h
    rw [List.cons_append, List.find?_cons_of_neg]
    · exact ih h.2
    · exact h.1

theorem find?_shareWith (l : List JS.ShareEntry) (g : Nat) (p : JS.Permission) :
    (JS.shareWith l g p).find? (fun s => s.user == g) =
      some { user := g, permission := p } := by
  by_cases hany : l.any (fun s => s.user == g) = true
  · rw [JS.shareWith, if_pos hany]
    exact find?_map_update l g p hany
  · rw [JS.shareWith, if_neg hany]
    exact find?_append_absent l g p hany

theorem shareWith_absent (l : List JS.ShareEntry) (g u : Nat) (p : JS.Permission)
    (hab : ∀ s ∈ l, s.user ≠ u) (hg : g ≠ u) :
    ∀ s ∈ JS.shareWith l g p, s.user ≠ u := by
  intro s hs
  unfold JS.shareWith at hs
  by_cases hany : l.any (fun s => s.user == g) = true
  · rw [if_pos hany] at hs
    obtain ⟨t, ht, rfl⟩ := List.mem_map.mp hs
    by_cases h : t.user = g
    · simpa [h] using hg
    · simpa [h] using hab t ht
  · rw [if_neg hany] at hs
    rcases List.mem_append.mp hs with h | h
    · exact hab s h
    · simp at h
      simp [h, hg]

theorem applySignatures_ok_eq (st : JS.State) (actor : Nat) (sig : String) (now : Nat)
    (pdf : Pdf) (hs : sig ≠ "") (hauth : JS.signAuthorized st.doc actor)
    (hfile : lookupFile st.files st.doc.filePath = some pdf)
    (hf : startsWithStr sig pngHeader = true) :
    JS.applySignatures st actor sig now true =
      ({ files :=
           storeWrite st.files st.doc.filePath
             { pdf with marks := JS.centerRect pdf :: pdf.marks },
         doc :=
           { st.doc with
             status := "signed",
             signedBy := JS.upsertSignedBy st.doc.signedBy actor now sig } },
       .ok ()) := by
  simp only [JS.applySignatures, hfile]
  rw [if_neg hs, if_neg (not_not_intro hauth), if_neg (not_not_intro (Or.inl hf))]
  simp

theorem applySignature_ok_eq (st : TS.State) (req : TS.SignRequest) (pdf : Pdf)
    (hown : st.doc.user = req.actor)
    (hfile : lookupFile st.files st.doc.filePath = some pdf)
    (h1 : 1 ≤ req.pageNumber) (h2 : req.pageNumber ≤ pdf.pageCount) :
    TS.applySignature st req true =
      ({ files :=
           storeWrite st.files
             (signedDocsDir ++ "/" ++ TS.newFileNameFor st.doc req.now)
             { pdf with
               marks :=
                 mapImagePlacement pdf.width pdf.height req.viewW req.viewH
                   req.posX req.posY req.imgW req.imgH :: pdf.marks },
         doc :=
           { st.doc with
             filePath := signedDocsDir ++ "/" ++ TS.newFileNameFor st.doc req.now,
             fileName := TS.newFileNameFor st.doc req.now,
             status := TS.DocStatus.signed,
             lastSignedAt := some req.now } },
       .ok (signedDocsDir ++ "/" ++ TS.newFileNameFor st.doc req.now)) := by
  simp only [TS.applySignature, hfile]
  rw [if_neg (by omega), if_neg (not_not_intro hown), if_neg (by omega)]
  simp

theorem applySignature_writeFail_eq (st : TS.State) (req : TS.SignRequest) (pdf : Pdf)
    (hown : st.doc.user = req.actor)
    (hfile : lookupFile st.files st.doc.filePath = some pdf)
    (h1 : 1 ≤ req.pageNumber) (h2 : req.pageNumber ≤ pdf.pageCount) :
    TS.applySignature st req false = (st, .error .persistenceFailure) := by
  simp only [TS.applySignature, hfile]
  rw [if_neg (by omega), if_neg (not_not_intro hown), if_neg (by omega)]
  simp

theorem applySignature_ok_status (st : TS.State) (req : TS.SignRequest) (w : Bool)
    (st2 : TS.State) (p : String) (h : TS.applySignature st req w = (st2, .ok p)) :
    st2.doc.status = TS.DocStatus.signed := by
  unfold TS.applySignature at h
  split at h
  · exact absurd h (by simp)
  split at h
  · exact absurd h (by simp)
  split at h
  · exact absurd h (by simp)
  split at h
  · exact absurd h (by simp)
  split at h
  · have hfst := congrArg Prod.fst h
    dsimp only at hfst
    subst hfst
    rfl
  · exact absurd h (by simp)

/-!
Claim theorems.
-/

/-- C1: for every image sign request whose placement rectangle (top-left
`posX`, `posY`, display size 150 x aspect-derived height in viewport units)
lies fully inside the viewport, the rectangle passed to the page draw
operation in `applySignature` - `mapImagePlacement`, which is exactly the
argument of `drawImage` in the source - lies fully inside
`[0, pdfW] x [0, pdfH]`, and it coincides with its clamp into
`[0, pdfW - width] x [0, pdfH - height]`, so the clamping is already in
effect in the drawn rectangle.  (In the source the clamp statements run after
the draw call; on this domain the drawn and the clamped rectangles are
equal.) -/
theorem C1_in_viewport_drawn_rect_in_bounds
    (pdfW pdfH viewW viewH posX posY imgW imgH : ℚ)
    (hvW : 0 < viewW) (hvH : 0 < viewH) (hpW : 0 ≤ pdfW) (hpH : 0 ≤ pdfH)
    (hx0 : 0 ≤ posX) (hx1 : posX + frontendDisplayWidth ≤ viewW)
    (hy0 : 0 ≤ posY)
    (hy1 : posY + imgH * (frontendDisplayWidth / imgW) ≤ viewH) :
    inPage pdfW pdfH (mapImagePlacement pdfW pdfH viewW viewH posX posY imgW imgH) ∧
    clampRect pdfW pdfH (mapImagePlacement pdfW pdfH viewW viewH posX posY imgW imgH) =
      mapImagePlacement pdfW pdfH viewW viewH posX posY imgW imgH := by
  have hsX : 0 ≤ pdfW / viewW := div_nonneg hpW hvW.le
  have hsY : 0 ≤ pdfH / viewH := div_nonneg hpH hvH.le
  have hWc : viewW * (pdfW / viewW) = pdfW := by field_simp
  have hHc : viewH * (pdfH / viewH) = pdfH := by field_simp
  have hxr : posX * (pdfW / viewW) + frontendDisplayWidth * (pdfW / viewW) ≤ pdfW := by
    have hm := mul_le_mul_of_nonneg_right hx1 hsX
    rw [add_mul, hWc] at hm
    exact hm
  have hyr : posY * (pdfH / viewH) +
      imgH * (frontendDisplayWidth / imgW) * (pdfH / viewH) ≤ pdfH := by
    have hm := mul_le_mul_of_nonneg_right hy1 hsY
    rw [add_mul, hHc] at hm
    exact hm
  have hin : inPage pdfW pdfH (mapImagePlacement pdfW pdfH viewW viewH posX posY imgW imgH) := by
    refine ⟨?_, ?_, ?_, ?_⟩ <;>
      simp only [mapImagePlacement, scaleX, scaleY]
    · exact mul_nonneg hx0 hsX
    · exact hxr
    · linarith [hyr]
    · linarith [mul_nonneg hy0 hsY]
  exact ⟨hin, clampRect_eq_of_inPage hin⟩

/-- C1 witness: the hypotheses hold and the bounds follow at the concrete
scenario with a 612x792 page, 300x400 viewport, image of intrinsic size
300x150, placed at viewport position (50, 100). -/
theorem C1_in_viewport_drawn_rect_in_bounds_witness :
    ((0:ℚ) < 300 ∧ (0:ℚ) < 400 ∧ (0:ℚ) ≤ 612 ∧ (0:ℚ) ≤ 792 ∧
     (0:ℚ) ≤ 50 ∧ (50:ℚ) + frontendDisplayWidth ≤ 300 ∧
     (0:ℚ) ≤ 100 ∧ (100:ℚ) + 150 * (frontendDisplayWidth / 300) ≤ 400) ∧
    (inPage 612 792 (mapImagePlacement 612 792 300 400 50 100 300 150) ∧
     clampRect 612 792 (mapImagePlacement 612 792 300 400 50 100 300 150) =
       mapImagePlacement 612 792 300 400 50 100 300 150) :=
  ⟨by norm_num [frontendDisplayWidth],
   C1_in_viewport_drawn_rect_in_bounds 612 792 300 400 50 100 300 150
     (by norm_num) (by norm_num) (by norm_num) (by norm_num)
     (by norm_num) (by norm_num [frontendDisplayWidth]) (by norm_num)
     (by norm_num [frontendDisplayWidth])⟩

/-- C2: the legacy sign operation succeeds exactly when the actor is the
document owner or holds a view-and-sign grant (`signAuthorized`); any other
actor gets `forbidden` and the state - file store and record, hence the
signature entries - is unchanged. -/
theorem C2_sign_requires_owner_or_sign_grant
    (st : JS.State) (actor : Nat) (sig : String) (now : Nat) (pdf : Pdf)
    (hs : sig ≠ "") (hf : startsWithStr sig pngHeader = true)
    (hfile : lookupFile st.files st.doc.filePath = some pdf) :
    ((JS.applySignatures st actor sig now true).2 = .ok () ↔
      JS.signAuthorized st.doc actor) ∧
    (¬ JS.signAuthorized st.doc actor →
      JS.applySignatures st actor sig now true = (st, .error .forbidden)) := by
  have hneg : ¬ JS.signAuthorized st.doc actor →
      JS.applySignatures st actor sig now true = (st, .error .forbidden) := by
    intro hna
    simp only [JS.applySignatures]
    rw [if_neg hs, if_pos hna]
  refine ⟨⟨?_, ?_⟩, hneg⟩
  · intro hok
    by_contra hna
    rw [hneg hna] at hok
    simp at hok
  · intro hauth
    rw [applySignatures_ok_eq st actor sig now pdf hs hauth hfile hf]

/-- C2 witness: user 8 holds a view-and-sign grant on the example document and
may sign; the equivalence and the forbidden case are instances of the claim
theorem. -/
theorem C2_sign_requires_owner_or_sign_grant_witness :
    (exSig ≠ "" ∧ startsWithStr exSig pngHeader = true ∧
     lookupFile exJSState.files exJSState.doc.filePath = some exPdf) ∧
    (((JS.applySignatures exJSState 8 exSig 5 true).2 = .ok () ↔
       JS.signAuthorized exJSState.doc 8) ∧
     (¬ JS.signAuthorized exJSState.doc 8 →
       JS.applySignatures exJSState 8 exSig 5 true = (exJSState, .error .forbidden))) :=
  ⟨by decide,
   C2_sign_requires_owner_or_sign_grant exJSState 8 exSig 5 exPdf
     (by decide) (by decide) (by decide)⟩

/-- C3: when the write of the new version fails, `applySignature` fails with
`persistenceFailure` and returns the state exactly as it was: the record
status, file pointer and all file contents are untouched (the metadata
update runs only after a successful write in the source). -/
theorem C3_write_failure_leaves_state_unchanged
    (st : TS.State) (req : TS.SignRequest) (pdf : Pdf)
    (hown : st.doc.user = req.actor)
    (hfile : lookupFile st.files st.doc.filePath = some pdf)
    (h1 : 1 ≤ req.pageNumber) (h2 : req.pageNumber ≤ pdf.pageCount) :
    TS.applySignature st req false = (st, .error .persistenceFailure) :=
  applySignature_writeFail_eq st req pdf hown hfile h1 h2

/-- C3 witness at the concrete example state. -/
theorem C3_write_failure_leaves_state_unchanged_witness :
    (exTSState.doc.user = (exReq 1 42).actor ∧
     lookupFile exTSState.files exTSState.doc.filePath = some exPdf ∧
     1 ≤ (exReq 1 42).pageNumber ∧ (exReq 1 42).pageNumber ≤ exPdf.pageCount) ∧
    TS.applySignature exTSState (exReq 1 42) false =
      (exTSState, .error .persistenceFailure) :=
  ⟨by decide,
   C3_write_failure_leaves_state_unchanged exTSState (exReq 1 42) exPdf
     (by decide) (by decide) (by decide) (by decide)⟩

/-- C5: at the concrete scenario of the specification (native page 612x792,
viewport 300x400, image displayed at 150x75 viewport units - intrinsic size
300x150 - placed at viewport (50, 100)), the coordinate mapping computes
scaleX = 2.04, scaleY = 1.98, mapped width 306, height 148.5, x = 102 and
y = 792 - 198 - 148.5 = 445.5, and the result lies within
[0, 612] x [0, 792]. -/
theorem C5_concrete_mapping_scenario :
    scaleX 612 300 = 2.04 ∧ scaleY 792 400 = 1.98 ∧
    mapImagePlacement 612 792 300 400 50 100 300 150 =
      { x := 102, y := 445.5, width := 306, height := 148.5 } ∧
    inPage 612 792 (mapImagePlacement 612 792 300 400 50 100 300 150) := by
  refine ⟨by norm_num [scaleX], by norm_num [scaleY], ?_, ?_⟩
  · norm_num [mapImagePlacement, scaleX, scaleY, frontendDisplayWidth]
  · norm_num [inPage, mapImagePlacement, scaleX, scaleY, frontendDisplayWidth]

/-- C6: a sign request whose page number is not within 1..pageCount (for any
write outcome) fails with `pageOutOfRange` and the state - no file written,
record status and file pointer - is exactly the input state. -/
theorem C6_page_out_of_range_rejected
    (st : TS.State) (req : TS.SignRequest) (writeOk : Bool) (pdf : Pdf)
    (hown : st.doc.user = req.actor)
    (hfile : lookupFile st.files st.doc.filePath = some pdf)
    (hbad : ¬ (1 ≤ req.pageNumber ∧ req.pageNumber ≤ pdf.pageCount)) :
    TS.applySignature st req writeOk = (st, .error .pageOutOfRange) := by
  by_cases hlt : req.pageNumber < 1
  · simp only [TS.applySignature]
    rw [if_pos hlt]
  · have hgt : pdf.pageCount < req.pageNumber := by omega
    simp only [TS.applySignature, hfile]
    rw [if_neg hlt, if_neg (not_not_intro hown), if_pos hgt]

/-- C6 witness: page 5 requested against the 3-page example document. -/
theorem C6_page_out_of_range_rejected_witness :
    (exTSState.doc.user = (exReq 5 42).actor ∧
     lookupFile exTSState.files exTSState.doc.filePath = some exPdf ∧
     ¬ (1 ≤ (exReq 5 42).pageNumber ∧ (exReq 5 42).pageNumber ≤ exPdf.pageCount)) ∧
    TS.applySignature exTSState (exReq 5 42) true = (exTSState, .error .pageOutOfRange) :=
  ⟨by decide,
   C6_page_out_of_range_rejected exTSState (exReq 5 42) true exPdf
     (by decide) (by decide) (by decide)⟩

/-- C4 counterexample: in the legacy `applySignatures` controller a successful
sign operation writes the modified bytes to `document.filePath` itself, so the
file previously pointed to by the record is overwritten (its old content is
gone from the store) and no new file is created: the record still points at
the same path. -/
theorem C4_overwrite_counterexample :
    (JS.applySignatures exJSState 7 exSig 5 true).2 = .ok () ∧
    (JS.applySignatures exJSState 7 exSig 5 true).1.doc.filePath = exPath ∧
    lookupFile (JS.applySignatures exJSState 7 exSig 5 true).1.files exPath ≠ some exPdf := by
  refine ⟨by decide, by decide, by decide⟩

/-- C4 (amended): in the TypeScript `applySignature` controller the claim
holds - the new version goes to a fresh file whose name is derived from the
original file name (not the current file name) plus the timestamp and a
`.pdf` suffix inside the signed-documents area, the record is pointed at it,
and every other path of the store (in particular the previously pointed-to
file whenever its path differs from the new one) keeps its previous
content. -/
theorem C4_new_version_file_and_frame
    (st : TS.State) (req : TS.SignRequest) (pdf : Pdf)
    (hown : st.doc.user = req.actor)
    (hfile : lookupFile st.files st.doc.filePath = some pdf)
    (h1 : 1 ≤ req.pageNumber) (h2 : req.pageNumber ≤ pdf.pageCount) :
    (TS.applySignature st req true).2 =
      .ok (signedDocsDir ++ "/" ++ TS.newFileNameFor st.doc req.now) ∧
    (TS.applySignature st req true).1.doc.fileName = TS.newFileNameFor st.doc req.now ∧
    (TS.applySignature st req true).1.doc.filePath =
      signedDocsDir ++ "/" ++ TS.newFileNameFor st.doc req.now ∧
    TS.newFileNameFor st.doc req.now =
      dropExt st.doc.originalName ++ "_signed_" ++ toString req.now ++ ".pdf" ∧
    ∀ q, q ≠ signedDocsDir ++ "/" ++ TS.newFileNameFor st.doc req.now →
      lookupFile (TS.applySignature st req true).1.files q = lookupFile st.files q := by
  have he := applySignature_ok_eq st req pdf hown hfile h1 h2
  refine ⟨?_, ?_, ?_, rfl, ?_⟩
  · rw [he]
  · rw [he]
  · rw [he]
  · intro q hq
    rw [he]
    exact lookupFile_storeWrite_ne st.files _ q _ hq

/-- C4 witness at the concrete example state, with timestamp 42. -/
theorem C4_new_version_file_and_frame_witness :
    (exTSState.doc.user = (exReq 1 42).actor ∧
     lookupFile exTSState.files exTSState.doc.filePath = some exPdf ∧
     1 ≤ (exReq 1 42).pageNumber ∧ (exReq 1 42).pageNumber ≤ exPdf.pageCount) ∧
    ((TS.applySignature exTSState (exReq 1 42) true).2 =
       .ok (signedDocsDir ++ "/" ++ TS.newFileNameFor exTSState.doc (exReq 1 42).now) ∧
     (TS.applySignature exTSState (exReq 1 42) true).1.doc.fileName =
       TS.newFileNameFor exTSState.doc (exReq 1 42).now ∧
     (TS.applySignature exTSState (exReq 1 42) true).1.doc.filePath =
       signedDocsDir ++ "/" ++ TS.newFileNameFor exTSState.doc (exReq 1 42).now ∧
     TS.newFileNameFor exTSState.doc (exReq 1 42).now =
       dropExt exTSState.doc.originalName ++ "_signed_" ++ toString (exReq 1 42).now ++ ".pdf" ∧
     ∀ q, q ≠ signedDocsDir ++ "/" ++ TS.newFileNameFor exTSState.doc (exReq 1 42).now →
       lookupFile (TS.applySignature exTSState (exReq 1 42) true).1.files q =
         lookupFile exTSState.files q) :=
  ⟨by decide,
   C4_new_version_file_and_frame exTSState (exReq 1 42) exPdf
     (by decide) (by decide) (by decide) (by decide)⟩

/-- C7: signing twice as the same actor leaves exactly one signature entry
keyed to that actor - the second sign updates the entry (timestamp and stored
artifact) in place - and the record file pointer refers to the second, newer
version.  In the legacy controller the pointer path is unchanged but its
content is the twice-composited version, different from the content after the
first sign; in the TypeScript controller the pointer advances to the file
named by the second timestamp. -/
theorem C7_resign_single_entry_and_pointer
    (stJ : JS.State) (actor : Nat) (sig1 sig2 : String) (t1 t2 : Nat) (pdfJ : Pdf)
    (hauth : JS.signAuthorized stJ.doc actor)
    (hs1 : sig1 ≠ "") (hs2 : sig2 ≠ "")
    (hf1 : startsWithStr sig1 pngHeader = true)
    (hf2 : startsWithStr sig2 pngHeader = true)
    (hfileJ : lookupFile stJ.files stJ.doc.filePath = some pdfJ)
    (hcount : JS.countFor stJ.doc.signedBy actor ≤ 1)
    (stT : TS.State) (req1 req2 : TS.SignRequest) (pdfT : Pdf)
    (hownT : stT.doc.user = req1.actor) (hact : req2.actor = req1.actor)
    (hfileT : lookupFile stT.files stT.doc.filePath = some pdfT)
    (hp1a : 1 ≤ req1.pageNumber) (hp1b : req1.pageNumber ≤ pdfT.pageCount)
    (hp2a : 1 ≤ req2.pageNumber) (hp2b : req2.pageNumber ≤ pdfT.pageCount) :
    ((JS.applySignatures stJ actor sig1 t1 true).2 = .ok () ∧
     (JS.applySignatures (JS.applySignatures stJ actor sig1 t1 true).1
        actor sig2 t2 true).2 = .ok () ∧
     JS.countFor (JS.applySignatures (JS.applySignatures stJ actor sig1 t1 true).1
        actor sig2 t2 true).1.doc.signedBy actor = 1 ∧
     (JS.applySignatures (JS.applySignatures stJ actor sig1 t1 true).1
        actor sig2 t2 true).1.doc.signedBy.find? (fun e => e.user == actor) =
       some { user := actor, signedAt := t2, signatureImage := sig2 } ∧
     (JS.applySignatures (JS.applySignatures stJ actor sig1 t1 true).1
        actor sig2 t2 true).1.doc.filePath = stJ.doc.filePath ∧
     lookupFile (JS.applySignatures (JS.applySignatures stJ actor sig1 t1 true).1
        actor sig2 t2 true).1.files stJ.doc.filePath =
       some { pdfJ with marks := JS.centerRect pdfJ :: JS.centerRect pdfJ :: pdfJ.marks } ∧
     lookupFile (JS.applySignatures (JS.applySignatures stJ actor sig1 t1 true).1
        actor sig2 t2 true).1.files stJ.doc.filePath ≠
       lookupFile (JS.applySignatures stJ actor sig1 t1 true).1.files stJ.doc.filePath) ∧
    ((TS.applySignature stT req1 true).2 =
       .ok (signedDocsDir ++ "/" ++ TS.newFileNameFor stT.doc req1.now) ∧
     (TS.applySignature (TS.applySignature stT req1 true).1 req2 true).2 =
       .ok (signedDocsDir ++ "/" ++ TS.newFileNameFor stT.doc req2.now) ∧
     (TS.applySignature (TS.applySignature stT req1 true).1 req2 true).1.doc.filePath =
       signedDocsDir ++ "/" ++ TS.newFileNameFor stT.doc req2.now) := by
  have e1 := applySignatures_ok_eq stJ actor sig1 t1 pdfJ hs1 hauth hfileJ hf1
  have hsb1 : (JS.applySignatures stJ actor sig1 t1 true).1.doc.signedBy =
      JS.upsertSignedBy stJ.doc.signedBy actor t1 sig1 := by rw [e1]
  have hfp1 : (JS.applySignatures stJ actor sig1 t1 true).1.doc.filePath =
      stJ.doc.filePath := by rw [e1]
  have hfl1 : (JS.applySignatures stJ actor sig1 t1 true).1.files =
      storeWrite stJ.files stJ.doc.filePath
        { pdfJ with marks := JS.centerRect pdfJ :: pdfJ.marks } := by rw [e1]
  have hauth2 : JS.signAuthorized (JS.applySignatures stJ actor sig1 t1 true).1.doc actor := by
    rw [e1]
    exact hauth
  have hfile2 : lookupFile (JS.applySignatures stJ actor sig1 t1 true).1.files
      (JS.applySignatures stJ actor sig1 t1 true).1.doc.filePath =
      some { pdfJ with marks := JS.centerRect pdfJ :: pdfJ.marks } := by
    rw [hfl1, hfp1]
    exact lookupFile_storeWrite_self _ _ _
  have e2 := applySignatures_ok_eq ((JS.applySignatures stJ actor sig1 t1 true).1)
    actor sig2 t2 ({ pdfJ with marks := JS.centerRect pdfJ :: pdfJ.marks })
    hs2 hauth2 hfile2 hf2
  have hsb2 : (JS.applySignatures (JS.applySignatures stJ actor sig1 t1 true).1
      actor sig2 t2 true).1.doc.signedBy =
      JS.upsertSignedBy ((JS.applySignatures stJ actor sig1 t1 true).1.doc.signedBy)
        actor t2 sig2 := by rw [e2]
  have hfp2 : (JS.applySignatures (JS.applySignatures stJ actor sig1 t1 true).1
      actor sig2 t2 true).1.doc.filePath =
      (JS.applySignatures stJ actor sig1 t1 true).1.doc.filePath := by rw [e2]
  have hfl2 : (JS.applySignatures (JS.applySignatures stJ actor sig1 t1 true).1
      actor sig2 t2 true).1.files =
      storeWrite ((JS.applySignatures stJ actor sig1 t1 true).1.files)
        ((JS.applySignatures stJ actor sig1 t1 true).1.doc.filePath)
        { pdfJ with marks := JS.centerRect pdfJ :: JS.centerRect pdfJ :: pdfJ.marks } := by
    rw [e2]
    rfl
  have eT1 := applySignature_ok_eq stT req1 pdfT hownT hfileT hp1a hp1b
  have hownT2 : (TS.applySignature stT req1 true).1.doc.user = req2.actor := by
    rw [eT1, hact]
    exact hownT
  have hfileT2 : lookupFile (TS.applySignature stT req1 true).1.files
      (TS.applySignature stT req1 true).1.doc.filePath =
      some { pdfT with
        marks := mapImagePlacement pdfT.width pdfT.height req1.viewW req1.viewH
          req1.posX req1.posY req1.imgW req1.imgH :: pdfT.marks } := by
    rw [eT1]
    exact lookupFile_storeWrite_self _ _ _
  have eT2 := applySignature_ok_eq ((TS.applySignature stT req1 true).1) req2
    ({ pdfT with
       marks := mapImagePlacement pdfT.width pdfT.height req1.viewW req1.viewH
         req1.posX req1.posY req1.imgW req1.imgH :: pdfT.marks })
    hownT2 hfileT2 hp2a hp2b
  refine ⟨⟨?_, ?_, ?_, ?_, ?_, ?_, ?_⟩, ⟨?_, ?_, ?_⟩⟩
  · rw [e1]
  · rw [e2]
  · rw [hsb2, hsb1]
    exact countFor_upsert _ actor t2 sig2 (le_of_eq (countFor_upsert _ actor t1 sig1 hcount))
  · rw [hsb2]
    exact find?_upsertSignedBy _ actor t2 sig2
  · rw [hfp2, hfp1]
  · rw [hfl2, hfp1]
    exact lookupFile_storeWrite_self _ _ _
  · rw [hfl2, hfp1, hfl1]
    rw [lookupFile_storeWrite_self, lookupFile_storeWrite_self]
    intro hc
    have hm := congrArg (fun q => q.marks.length) (Option.some.inj hc)
    simp at hm
  · rw [eT1]
  · rw [eT2]
    rw [show (TS.applySignature stT req1 true).1.doc = _ from congrArg (fun r => r.1.doc) eT1]
    rfl
  · rw [show (TS.applySignature (TS.applySignature stT req1 true).1 req2 true).1.doc.filePath =
      signedDocsDir ++ "/" ++
        TS.newFileNameFor (TS.applySignature stT req1 true).1.doc req2.now from by rw [eT2]]
    rw [show (TS.applySignature stT req1 true).1.doc = _ from congrArg (fun r => r.1.doc) eT1]
    rfl

/-- C7 witness: owner 7 signs the example document twice (timestamps 1 and 2
in the legacy model, 41 and 42 in the TypeScript model). -/
theorem C7_resign_single_entry_and_pointer_witness :
    (JS.signAuthorized exJSState.doc 7 ∧ JS.countFor exJSState.doc.signedBy 7 ≤ 1 ∧
     lookupFile exJSState.files exJSState.doc.filePath = some exPdf ∧
     lookupFile exTSState.files exTSState.doc.filePath = some exPdf) ∧
    (((JS.applySignatures exJSState 7 exSig 1 true).2 = .ok () ∧
      (JS.applySignatures (JS.applySignatures exJSState 7 exSig 1 true).1
         7 exSig2 2 true).2 = .ok () ∧
      JS.countFor (JS.applySignatures (JS.applySignatures exJSState 7 exSig 1 true).1
         7 exSig2 2 true).1.doc.signedBy 7 = 1 ∧
      (JS.applySignatures (JS.applySignatures exJSState 7 exSig 1 true).1
         7 exSig2 2 true).1.doc.signedBy.find? (fun e => e.user == 7) =
        some { user := 7, signedAt := 2, signatureImage := exSig2 } ∧
      (JS.applySignatures (JS.applySignatures exJSState 7 exSig 1 true).1
         7 exSig2 2 true).1.doc.filePath = exJSState.doc.filePath ∧
      lookupFile (JS.applySignatures (JS.applySignatures exJSState 7 exSig 1 true).1
         7 exSig2 2 true).1.files exJSState.doc.filePath =
        some { exPdf with marks := JS.centerRect exPdf :: JS.centerRect exPdf :: exPdf.marks } ∧
      lookupFile (JS.applySignatures (JS.applySignatures exJSState 7 exSig 1 true).1
         7 exSig2 2 true).1.files exJSState.doc.filePath ≠
        lookupFile (JS.applySignatures exJSState 7 exSig 1 true).1.files
          exJSState.doc.filePath) ∧
     ((TS.applySignature exTSState (exReq 1 41) true).2 =
        .ok (signedDocsDir ++ "/" ++ TS.newFileNameFor exTSState.doc (exReq 1 41).now) ∧
      (TS.applySignature (TS.applySignature exTSState (exReq 1 41) true).1
         (exReq 2 42) true).2 =
        .ok (signedDocsDir ++ "/" ++ TS.newFileNameFor exTSState.doc (exReq 2 42).now) ∧
      (TS.applySignature (TS.applySignature exTSState (exReq 1 41) true).1
         (exReq 2 42) true).1.doc.filePath =
        signedDocsDir ++ "/" ++ TS.newFileNameFor exTSState.doc (exReq 2 42).now)) :=
  ⟨by decide,
   C7_resign_single_entry_and_pointer exJSState 7 exSig exSig2 1 2 exPdf
     (by decide) (by decide) (by decide) (by decide) (by decide) (by decide) (by decide)
     exTSState (exReq 1 41) (exReq 2 42) exPdf
     (by decide) (by decide) (by decide) (by decide) (by decide) (by decide) (by decide)⟩

/-- C8: two share requests for the same grantee submitted sequentially by the
owner leave exactly one grant for that grantee, carrying the permission of
the later request. -/
theorem C8_reshare_updates_single_grant
    (st : JS.State) (actor g : Nat) (p1 p2 : JS.Permission)
    (hown : st.doc.owner = actor) (hg : g ≠ actor)
    (hcount : JS.countShare st.doc.sharedWith g ≤ 1) :
    (JS.shareDocument st actor (some g) p1).2 = .ok () ∧
    (JS.shareDocument (JS.shareDocument st actor (some g) p1).1 actor (some g) p2).2 =
      .ok () ∧
    JS.countShare (JS.shareDocument (JS.shareDocument st actor (some g) p1).1
        actor (some g) p2).1.doc.sharedWith g = 1 ∧
    (JS.shareDocument (JS.shareDocument st actor (some g) p1).1
        actor (some g) p2).1.doc.sharedWith.find? (fun s => s.user == g) =
      some { user := g, permission := p2 } := by
  have e1 : JS.shareDocument st actor (some g) p1 =
      ({ st with doc := { st.doc with
          sharedWith := JS.shareWith st.doc.sharedWith g p1 } }, .ok ()) := by
    simp only [JS.shareDocument]
    rw [if_neg (not_not_intro hown), if_neg hg]
  have e2 : JS.shareDocument
      ({ st with doc := { st.doc with
          sharedWith := JS.shareWith st.doc.sharedWith g p1 } } : JS.State)
      actor (some g) p2 =
      ({ st with doc := { st.doc with
          sharedWith := JS.shareWith (JS.shareWith st.doc.sharedWith g p1) g p2 } },
       .ok ()) := by
    simp only [JS.shareDocument]
    rw [if_neg (not_not_intro hown), if_neg hg]
  refine ⟨?_, ?_, ?_, ?_⟩
  · rw [e1]
  · rw [e1]
    exact congrArg Prod.snd e2
  · rw [e1]
    rw [show (JS.shareDocument _ actor (some g) p2).1.doc.sharedWith =
      JS.shareWith (JS.shareWith st.doc.sharedWith g p1) g p2
      from congrArg (fun r => r.1.doc.sharedWith) e2]
    exact countShare_shareWith _ g p2 (le_of_eq (countShare_shareWith _ g p1 hcount))
  · rw [e1]
    rw [show (JS.shareDocument _ actor (some g) p2).1.doc.sharedWith =
      JS.shareWith (JS.shareWith st.doc.sharedWith g p1) g p2
      from congrArg (fun r => r.1.doc.sharedWith) e2]
    exact find?_shareWith _ g p2

/-- C8 witness: grantee 9 is granted view, then view-and-sign, on the example
document owned by user 7. -/
theorem C8_reshare_updates_single_grant_witness :
    (exJSState.doc.owner = 7 ∧ (9 : Nat) ≠ 7 ∧
     JS.countShare exJSState.doc.sharedWith 9 ≤ 1) ∧
    ((JS.shareDocument exJSState 7 (some 9) JS.Permission.view).2 = .ok () ∧
     (JS.shareDocument (JS.shareDocument exJSState 7 (some 9) JS.Permission.view).1
        7 (some 9) JS.Permission.viewAndSign).2 = .ok () ∧
     JS.countShare (JS.shareDocument
        (JS.shareDocument exJSState 7 (some 9) JS.Permission.view).1
        7 (some 9) JS.Permission.viewAndSign).1.doc.sharedWith 9 = 1 ∧
     (JS.shareDocument (JS.shareDocument exJSState 7 (some 9) JS.Permission.view).1
        7 (some 9) JS.Permission.viewAndSign).1.doc.sharedWith.find?
        (fun s => s.user == 9) =
       some { user := 9, permission := JS.Permission.viewAndSign }) :=
  ⟨by decide,
   C8_reshare_updates_single_grant exJSState 7 9 JS.Permission.view
     JS.Permission.viewAndSign (by decide) (by decide) (by decide)⟩

/-- C9 counterexample: the metadata-update operation moves a signed document
back to pending - a transition outside the allowed set pending to signed,
signed to signed, signed to reviewed or archived - so not every exposed
operation respects the claimed transition relation. -/
theorem C9_signed_to_pending_counterexample :
    exSignedTSDoc.status = TS.DocStatus.signed ∧
    (TS.updateDocument exSignedTSDoc 7 (some TS.DocStatus.pending)).2 = .ok () ∧
    (TS.updateDocument exSignedTSDoc 7 (some TS.DocStatus.pending)).1.status =
      TS.DocStatus.pending := by
  refine ⟨rfl, by decide, by decide⟩

/-- C9 (amended): the sign operation itself moves the status only to signed
(pending to signed, or signed to signed on re-sign); the metadata-update
operation, however, sets the status to whatever enum value the request
carries - it enforces no transition relation, so signed to pending is
reachable through it. -/
theorem C9_sign_only_sets_signed_update_unrestricted
    (st st2 : TS.State) (req : TS.SignRequest) (w : Bool) (p : String)
    (h : TS.applySignature st req w = (st2, .ok p))
    (d : TS.Document) (a : Nat) (s : TS.DocStatus) (hd : d.user = a) :
    st2.doc.status = TS.DocStatus.signed ∧
    (TS.updateDocument d a (some s)).1.status = s := by
  refine ⟨applySignature_ok_status st req w st2 p h, ?_⟩
  unfold TS.updateDocument
  rw [if_neg (not_not_intro hd)]
  simp

/-- C9 witness: a successful sign at the example state yields status signed,
and a metadata update on the same document sets the requested status. -/
theorem C9_sign_only_sets_signed_update_unrestricted_witness :
    (exTSDoc.user = 7) ∧
    ((TS.applySignature exTSState (exReq 1 42) true).1.doc.status =
       TS.DocStatus.signed ∧
     (TS.updateDocument exTSDoc 7 (some TS.DocStatus.archived)).1.status =
       TS.DocStatus.archived) :=
  have e := applySignature_ok_eq exTSState (exReq 1 42) exPdf
    (by decide) (by decide) (by decide) (by decide)
  ⟨by decide,
   C9_sign_only_sets_signed_update_unrestricted exTSState
     ((TS.applySignature exTSState (exReq 1 42) true).1) (exReq 1 42) true
     (signedDocsDir ++ "/" ++ TS.newFileNameFor exTSState.doc (exReq 1 42).now)
     (by rw [e]) exTSDoc 7 TS.DocStatus.archived (by decide)⟩

/-- C10: a share request whose resolved grantee is the owner of the document
fails with the self-share error and leaves the state unchanged; and whenever
the owner holds no grant on the own document, no `shareDocument` call - with
any actor, target and permission - can introduce one. -/
theorem C10_owner_never_grantee
    (st : JS.State) (actor : Nat) (p : JS.Permission) (target : Option Nat)
    (hclean : ∀ s ∈ st.doc.sharedWith, s.user ≠ st.doc.owner) :
    (st.doc.owner = actor →
      JS.shareDocument st actor (some st.doc.owner) p = (st, .error .selfShare)) ∧
    (∀ s ∈ (JS.shareDocument st actor target p).1.doc.sharedWith,
      s.user ≠ st.doc.owner) := by
  constructor
  · intro hown
    simp only [JS.shareDocument]
    rw [if_neg (not_not_intro hown), if_pos hown]
  · by_cases h1 : st.doc.owner ≠ actor
    · simp only [JS.shareDocument]
      rw [if_pos h1]
      exact hclean
    · simp only [JS.shareDocument]
      rw [if_neg h1]
      cases target with
      | none => exact hclean
      | some g =>
        dsimp only
        by_cases hga : g = actor
        · rw [if_pos hga]
          exact hclean
        · rw [if_neg hga]
          exact shareWith_absent st.doc.sharedWith g st.doc.owner p hclean
            (fun hgo => hga (by rw [hgo, not_not.mp h1]))

/-- C10 witness: sharing the example document with its owner (user 7) fails
with the self-share error, and a share with user 9 keeps the owner out of the
grantee list. -/
theorem C10_owner_never_grantee_witness :
    (∀ s ∈ exJSState.doc.sharedWith, s.user ≠ exJSState.doc.owner) ∧
    ((exJSState.doc.owner = 7 →
       JS.shareDocument exJSState 7 (some exJSState.doc.owner) JS.Permission.view =
         (exJSState, .error .selfShare)) ∧
     (∀ s ∈ (JS.shareDocument exJSState 7 (some 9) JS.Permission.view).1.doc.sharedWith,
       s.user ≠ exJSState.doc.owner)) :=
  ⟨by decide,
   C10_owner_never_grantee exJSState 7 JS.Permission.view (some 9) (by decide)⟩

end DocSig
